import Mathlib

/-!
Verification of the `dag_clinical_trial` Airflow pipeline
(`src/airflow/dags/airflow_dag_clinical_trial.py`).

The file shallowly embeds the pipeline definition: the three task ids, the
run-scoped XCom exchange store, the three python callables `extract`,
`transform` and `load`, the dependency declaration
`extract_task >> transform_task >> load_task`, and the `DAG(...)`
registration parameters.  External collaborators (the `tdc` dataset library
and the Airflow host) are modelled as explicit parameters or, where the
repository only configures them, from their documented contract.
-/

namespace ClinicalTrialDag

/-- The task identifiers of the three `PythonOperator`s declared in the DAG
(`task_id="extract"`, `task_id="transform"`, `task_id="load"`). -/
inductive TaskId
  | extract
  | transform
  | load
deriving DecidableEq, Repr

/-- The run-scoped XCom exchange store: a chronological list of pushed
entries `(producing task, key, stored python value)`.  A stored value is an
`Option α`: `none` is python `None`, `some a` a real payload.  The newest
entry comes first. -/
structure Store (α : Type) where
  entries : List (TaskId × String × Option α)
deriving DecidableEq, Repr

/-- `ti.xcom_push(key, value)`: record one entry in the exchange store. -/
def Store.push {α : Type} (s : Store α) (t : TaskId) (k : String) (v : Option α) :
    Store α :=
  ⟨(t, k, v) :: s.entries⟩

/-- Raw lookup in the exchange store: `some v` when task `t` has published
python value `v` under key `k`, `none` when the key was never published. -/
def Store.lookup {α : Type} (s : Store α) (t : TaskId) (k : String) :
    Option (Option α) :=
  (s.entries.find? (fun e => decide (e.1 = t ∧ e.2.1 = k))).map (fun e => e.2.2)

/-- `t` has published some entry (possibly python `None`) under key `k`. -/
def Store.published {α : Type} (s : Store α) (t : TaskId) (k : String) : Bool :=
  (s.lookup t k).isSome

/-- `ti.xcom_pull(task_ids=t, key=k)`: returns the stored python value, and
python `None` (here `none`) when no XCom entry matches.  Airflow's pull does
not raise on a missing key; absence and a stored `None` both pull as `None`. -/
def Store.pull {α : Type} (s : Store α) (t : TaskId) (k : String) : Option α :=
  match s.lookup t k with
  | some v => v
  | none => none

/-- Result of running one python callable: the updated exchange store and the
list of values it printed, or an uncaught exception (`Except.error`). -/
abbrev StageResult (α : Type) := Except String (Store α × List (Option α))

/-- The `extract` callable: the "train" entry of the split of the
`TrialOutcome` dataset named "phase1" is pushed under key `"order_data"`.
The external `tdc` library is the parameter `tdc`, mapping a dataset name
and a split name to the data of that split. -/
def extract {α : Type} (tdc : String → String → α) (s : Store α) :
    StageResult α :=
  let data_train := tdc "phase1" "train"
  Except.ok (s.push TaskId.extract "order_data" (some data_train), [])

/-- The `transform` callable: pulls `"order_data"` from task `extract`,
prints it, and pushes the very same value under key `"total_order_value"`
(identity pass-through; no aggregation in the body). -/
def transform {α : Type} (s : Store α) : StageResult α :=
  let extract_data_string := s.pull TaskId.extract "order_data"
  Except.ok (s.push TaskId.transform "total_order_value" extract_data_string,
    [extract_data_string])

/-- The `load` callable: pulls `"total_order_value"` from task `transform`
and prints it; it pushes nothing. -/
def load {α : Type} (s : Store α) : StageResult α :=
  let total_value_string := s.pull TaskId.transform "total_order_value"
  Except.ok (s, [total_value_string])

/-- One full run of the pipeline in its declared order
extract, then transform, then load; collects the printed values. -/
def runPipeline {α : Type} (tdc : String → String → α) (s0 : Store α) :
    StageResult α :=
  match extract tdc s0 with
  | Except.error e => Except.error e
  | Except.ok (s1, o1) =>
    match transform s1 with
    | Except.error e => Except.error e
    | Except.ok (s2, o2) =>
      match load s2 with
      | Except.error e => Except.error e
      | Except.ok (s3, o3) => Except.ok (s3, o1 ++ o2 ++ o3)

/-- The direct dependency edges declared by
`extract_task >> transform_task >> load_task`: each task's list of direct
upstream tasks. -/
def upstream : TaskId → List TaskId
  | TaskId.extract => []
  | TaskId.transform => [TaskId.extract]
  | TaskId.load => [TaskId.transform]

/-- All tasks reachable by following `upstream` edges, with fuel `n`. -/
def upstreamClosure : Nat → TaskId → List TaskId
  | 0, _ => []
  | Nat.succ n, t => (upstream t).flatMap (fun u => u :: upstreamClosure n u)

/-- Outcome of one task-instance attempt at the host. -/
inductive Outcome
  | success
  | failure
deriving DecidableEq, Repr

/-- Modelled from the spec: the host orchestrator's scheduling contract (the
scheduler itself is an external collaborator, not code of this repository).
A run trace is a chronological list of `(task, outcome)` events;
`validFrom done tr` checks that every event's task has all of its direct
upstream tasks in the set `done` of previously succeeded tasks: no stage may
execute before all its predecessors succeed. -/
def validFrom (done : List TaskId) : List (TaskId × Outcome) → Bool
  | [] => true
  | e :: rest =>
      (upstream e.1).all (fun u => decide (u ∈ done)) &&
      validFrom (if e.2 = Outcome.success then e.1 :: done else done) rest

/-- A trace the host contract admits, starting from no succeeded task. -/
def validTrace (tr : List (TaskId × Outcome)) : Bool :=
  validFrom [] tr

/-- The registration parameters passed to `DAG(...)`. -/
structure DagConfig where
  dag_id : String
  retries : Nat
  description : String
  schedule : Option String
  catchup : Bool
  tags : List String
deriving DecidableEq, Repr

/-- The `with DAG("dag_clinical_trial", ...) as dag` registration:
`default_args={"retries": 2}`, `description="DAG clinical trial"`,
`schedule=None`, `catchup=False`, `tags=["example"]`. -/
def dag_clinical_trial : DagConfig :=
  { dag_id := "dag_clinical_trial"
    retries := 2
    description := "DAG clinical trial"
    schedule := none
    catchup := false
    tags := ["example"] }

/-- C1: If extract has published python value `v` under key `"order_data"`,
then transform completes and republishes exactly that value `v` under key
`"total_order_value"` (identity pass-through, no aggregation): what transform
publishes is derived solely from what extract published. -/
theorem transform_identity_passthrough {α : Type} (s : Store α) (v : Option α)
    (h : s.lookup TaskId.extract "order_data" = some v) :
    ∃ t : Store α × List (Option α), transform s = Except.ok t ∧
      t.1.lookup TaskId.transform "total_order_value" = some v := by
  refine ⟨(s.push TaskId.transform "total_order_value" v, [v]), ?_, ?_⟩
  · simp [transform, Store.pull, h]
  · simp [Store.push, Store.lookup, List.find?]

/-- Witness for C1 at a concrete store where extract published `some 7`. -/
theorem transform_identity_passthrough_witness :
    (Store.mk [(TaskId.extract, "order_data", some (7 : Nat))]).lookup
        TaskId.extract "order_data" = some (some 7) ∧
    ∃ t : Store Nat × List (Option Nat),
      transform (Store.mk [(TaskId.extract, "order_data", some 7)]) =
        Except.ok t ∧
      t.1.lookup TaskId.transform "total_order_value" = some (some 7) :=
  ⟨by decide,
    transform_identity_passthrough
      (Store.mk [(TaskId.extract, "order_data", some 7)]) (some 7) (by decide)⟩

/-- C3 (amended): the extract stage takes no input from the exchange store
(its result is the same push for every prior store and it prints nothing),
retrieves the fixed dataset partition "phase1", selects its training split,
and its only write is the one publish of that split under key
`"order_data"`. -/
theorem extract_contract {α : Type} (tdc : String → String → α) (s : Store α) :
    extract tdc s =
      Except.ok (s.push TaskId.extract "order_data"
        (some (tdc "phase1" "train")), []) := rfl

/-- C3 counterexample: the partition name the code passes to `TrialOutcome`
is `"phase1"`, not `"phase 1"` as the claim states.  With a dataset source
that returns 1 exactly for the dataset named "phase 1" and 0 otherwise,
extract publishes 0: it did not retrieve partition "phase 1". -/
theorem extract_partition_name_counterexample :
    ("phase1" : String) ≠ "phase 1" ∧
    extract (fun n _ => if n = "phase 1" then (1 : Nat) else 0) (Store.mk []) =
      Except.ok (Store.mk [(TaskId.extract, "order_data", some 0)], []) ∧
    (some (0 : Nat) : Option Nat) ≠ some 1 := by
  refine ⟨by decide, rfl, by decide⟩

/-- C4 (amended): a read of an unpublished upstream key does not fail the
stage: the pull yields the absent-value marker `none` (python `None`) and
the stage completes normally, transform republishing `none` under
`"total_order_value"` and load printing `none`; the missing value propagates
silently and nothing recovers it. -/
theorem missing_upstream_silent {α : Type} (s : Store α)
    (h1 : s.lookup TaskId.extract "order_data" = none)
    (h2 : s.lookup TaskId.transform "total_order_value" = none) :
    transform s =
        Except.ok (s.push TaskId.transform "total_order_value" none, [none]) ∧
    load s = Except.ok (s, [none]) := by
  constructor
  · simp [transform, Store.pull, h1]
  · simp [load, Store.pull, h2]

/-- Witness for C4 (amended) at the empty exchange store. -/
theorem missing_upstream_silent_witness :
    ((Store.mk ([] : List (TaskId × String × Option Nat))).lookup
        TaskId.extract "order_data" = none) ∧
    transform (Store.mk ([] : List (TaskId × String × Option Nat))) =
        Except.ok (Store.mk [(TaskId.transform, "total_order_value", none)],
          [none]) ∧
    load (Store.mk ([] : List (TaskId × String × Option Nat))) =
        Except.ok (Store.mk [], [none]) :=
  ⟨rfl, missing_upstream_silent (Store.mk []) rfl rfl⟩

/-- C4 counterexample: with nothing published, transform and load both
complete with `Except.ok` (no hard failure of the stage, contrary to the
claim). -/
theorem missing_upstream_no_failure_counterexample :
    transform (Store.mk ([] : List (TaskId × String × Option Nat))) =
        Except.ok (Store.mk [(TaskId.transform, "total_order_value", none)],
          [none]) ∧
    load (Store.mk ([] : List (TaskId × String × Option Nat))) =
        Except.ok (Store.mk [], [none]) :=
  ⟨rfl, rfl⟩

/-- C5: in a full run each producing stage writes its key exactly once: the
final exchange store is the initial one extended by exactly one entry under
`(extract, "order_data")` and exactly one under
`(transform, "total_order_value")`, and these two keys differ, so no key is
written twice within a run. -/
theorem pipeline_single_writes {α : Type} (tdc : String → String → α)
    (s0 : Store α) :
    runPipeline tdc s0 =
      Except.ok
        (Store.mk
          ((TaskId.transform, "total_order_value", some (tdc "phase1" "train")) ::
           (TaskId.extract, "order_data", some (tdc "phase1" "train")) ::
           s0.entries),
         [some (tdc "phase1" "train"), some (tdc "phase1" "train")]) ∧
    ("order_data" : String) ≠ "total_order_value" := by
  refine ⟨rfl, by decide⟩

/-- C6: the pipeline is registered under the name "dag_clinical_trial" with
a default per-stage retry count of 2, no periodic schedule (manual
invocation only), no catchup of missed past runs, and the single tag
"example". -/
theorem dag_registration :
    dag_clinical_trial.dag_id = "dag_clinical_trial" ∧
    dag_clinical_trial.retries = 2 ∧
    dag_clinical_trial.schedule = none ∧
    dag_clinical_trial.catchup = false ∧
    dag_clinical_trial.tags = ["example"] :=
  ⟨rfl, rfl, rfl, rfl, rfl⟩

/-- C7: with the dataset source a (deterministic) function of the partition
name, any two executions of extract publish equal splits under
`"order_data"`, namely the train split of partition "phase1", whatever the
prior exchange stores were. -/
theorem extract_idempotent {α : Type} (tdc : String → String → α)
    (s1 s2 : Store α) (r1 r2 : Store α × List (Option α))
    (h1 : extract tdc s1 = Except.ok r1)
    (h2 : extract tdc s2 = Except.ok r2) :
    r1.1.lookup TaskId.extract "order_data" =
        some (some (tdc "phase1" "train")) ∧
    r1.1.lookup TaskId.extract "order_data" =
        r2.1.lookup TaskId.extract "order_data" := by
  have e1 : (s1.push TaskId.extract "order_data"
      (some (tdc "phase1" "train")), ([] : List (Option α))) = r1 := by
    simpa [extract] using h1
  have e2 : (s2.push TaskId.extract "order_data"
      (some (tdc "phase1" "train")), ([] : List (Option α))) = r2 := by
    simpa [extract] using h2
  subst e1
  subst e2
  constructor
  · simp [Store.push, Store.lookup, List.find?]
  · simp [Store.push, Store.lookup, List.find?]

/-- Witness for C7: two extract runs from different stores publish the same
split. -/
theorem extract_idempotent_witness :
    extract (fun _ _ => (3 : Nat)) (Store.mk []) =
        Except.ok (Store.mk [(TaskId.extract, "order_data", some 3)], []) ∧
    extract (fun _ _ => (3 : Nat))
        (Store.mk [(TaskId.load, "other", none)]) =
        Except.ok (Store.mk [(TaskId.extract, "order_data", some 3),
          (TaskId.load, "other", none)], []) ∧
    ((Store.mk [(TaskId.extract, "order_data", some (3 : Nat))]).lookup
        TaskId.extract "order_data" = some (some 3) ∧
     (Store.mk [(TaskId.extract, "order_data", some (3 : Nat))]).lookup
        TaskId.extract "order_data" =
       (Store.mk [(TaskId.extract, "order_data", some (3 : Nat)),
          (TaskId.load, "other", none)]).lookup TaskId.extract "order_data") :=
  ⟨rfl, rfl,
    extract_idempotent (fun _ _ => (3 : Nat)) (Store.mk [])
      (Store.mk [(TaskId.load, "other", none)]) _ _ rfl rfl⟩

/-- C8: load reads `"total_order_value"` as published by transform, prints
it, and leaves the exchange store unchanged, publishing nothing; and no
task has load among its upstream tasks, so load has no successor stage. -/
theorem load_frame {α : Type} (s : Store α) :
    load s = Except.ok (s, [s.pull TaskId.transform "total_order_value"]) ∧
    ∀ t : TaskId, TaskId.load ∉ upstream t := by
  refine ⟨rfl, ?_⟩
  intro t
  cases t <;> decide

/-- C9: if nothing has been published under `(extract, "order_data")`,
transform completes without raising: the pull yields `none` (python
`None`), which transform prints and republishes under
`"total_order_value"`; the missing upstream value propagates silently. -/
theorem transform_missing_input_completes {α : Type} (s : Store α)
    (h : s.lookup TaskId.extract "order_data" = none) :
    transform s =
      Except.ok (s.push TaskId.transform "total_order_value" none, [none]) := by
  simp [transform, Store.pull, h]

/-- Witness for C9 at the empty exchange store. -/
theorem transform_missing_input_completes_witness :
    ((Store.mk ([] : List (TaskId × String × Option Nat))).lookup
        TaskId.extract "order_data" = none) ∧
    transform (Store.mk ([] : List (TaskId × String × Option Nat))) =
      Except.ok (Store.mk [(TaskId.transform, "total_order_value", none)],
        [none]) :=
  ⟨rfl, transform_missing_input_completes (Store.mk []) rfl⟩

/-- C10: the printed output of load depends only on the exchange-store entry
under `(transform, "total_order_value")`: two runs whose stores agree on
that entry print the same output, whatever else the stores hold. -/
theorem load_output_noninterference {α : Type} (s1 s2 : Store α)
    (h : s1.lookup TaskId.transform "total_order_value" =
         s2.lookup TaskId.transform "total_order_value") :
    ∃ out : List (Option α),
      load s1 = Except.ok (s1, out) ∧ load s2 = Except.ok (s2, out) := by
  refine ⟨[s1.pull TaskId.transform "total_order_value"], rfl, ?_⟩
  simp [load, Store.pull, h]

/-- Witness for C10: two stores that differ under `(extract, "order_data")`
but agree under `(transform, "total_order_value")` give load the same
output. -/
theorem load_output_noninterference_witness :
    ((Store.mk [(TaskId.transform, "total_order_value", some (5 : Nat)),
        (TaskId.extract, "order_data", some 1)]).lookup
        TaskId.transform "total_order_value" =
      (Store.mk [(TaskId.transform, "total_order_value", some (5 : Nat)),
        (TaskId.extract, "order_data", some 2)]).lookup
        TaskId.transform "total_order_value") ∧
    ∃ out : List (Option Nat),
      load (Store.mk [(TaskId.transform, "total_order_value", some 5),
          (TaskId.extract, "order_data", some 1)]) =
        Except.ok (Store.mk [(TaskId.transform, "total_order_value", some 5),
          (TaskId.extract, "order_data", some 1)], out) ∧
      load (Store.mk [(TaskId.transform, "total_order_value", some 5),
          (TaskId.extract, "order_data", some 2)]) =
        Except.ok (Store.mk [(TaskId.transform, "total_order_value", some 5),
          (TaskId.extract, "order_data", some 2)], out) :=
  ⟨rfl,
    load_output_noninterference
      (Store.mk [(TaskId.transform, "total_order_value", some 5),
        (TaskId.extract, "order_data", some 1)])
      (Store.mk [(TaskId.transform, "total_order_value", some 5),
        (TaskId.extract, "order_data", some 2)]) rfl⟩

/-- In a trace the host contract admits from succeeded set `done`, every
direct upstream task of any event is either already in `done` or succeeded
strictly earlier in the trace. -/
theorem validFrom_spec (tr : List (TaskId × Outcome)) :
    ∀ done : List TaskId, validFrom done tr = true →
      ∀ (i : Nat) (hi : i < tr.length),
        ∀ u ∈ upstream (tr.get ⟨i, hi⟩).1,
          u ∈ done ∨ ∃ j, j < i ∧ ∃ hj : j < tr.length,
            tr.get ⟨j, hj⟩ = (u, Outcome.success) := by
  induction tr with
  | nil =>
    intro done _ i hi
    exact absurd hi (Nat.not_lt_zero i)
  | cons e rest ih =>
    intro done hv i hi u hu
    rw [validFrom, Bool.and_eq_true, List.all_eq_true] at hv
    obtain ⟨h1, h2⟩ := hv
    cases i with
    | zero =>
      exact Or.inl (of_decide_eq_true (h1 u hu))
    | succ i' =>
      have hi' : i' < rest.length := Nat.lt_of_succ_lt_succ hi
      rcases ih _ h2 i' hi' u hu with hd | ⟨j, hj1, hj2, hj3⟩
      · by_cases he : e.2 = Outcome.success
        · rw [if_pos he] at hd
          rcases List.mem_cons.mp hd with heq | hd'
          · refine Or.inr ⟨0, Nat.succ_pos i', Nat.succ_pos rest.length, ?_⟩
            cases e
            simp_all
          · exact Or.inl hd'
        · rw [if_neg he] at hd
          exact Or.inl hd
      · exact Or.inr ⟨j + 1, Nat.succ_lt_succ hj1, Nat.succ_lt_succ hj2, hj3⟩

/-- C2: the dependency graph declared by
`extract_task >> transform_task >> load_task` is the strict linear acyclic
chain extract, then transform, then load, and in every trace the host
contract admits, a transform event is strictly preceded by a successful
extract event and a load event is strictly preceded by a successful
transform event which is itself strictly preceded by a successful extract
event: no stage runs before all its predecessors succeed. -/
theorem pipeline_linear_chain (tr : List (TaskId × Outcome))
    (h : validTrace tr = true) :
    (upstream TaskId.extract = [] ∧
     upstream TaskId.transform = [TaskId.extract] ∧
     upstream TaskId.load = [TaskId.transform]) ∧
    (∀ t : TaskId, t ∉ upstreamClosure 3 t) ∧
    (∀ (i : Nat) (hi : i < tr.length),
      (tr.get ⟨i, hi⟩).1 = TaskId.transform →
      ∃ j, j < i ∧ ∃ hj : j < tr.length,
        tr.get ⟨j, hj⟩ = (TaskId.extract, Outcome.success)) ∧
    (∀ (i : Nat) (hi : i < tr.length),
      (tr.get ⟨i, hi⟩).1 = TaskId.load →
      ∃ j, j < i ∧
        (∃ hj : j < tr.length,
          tr.get ⟨j, hj⟩ = (TaskId.transform, Outcome.success)) ∧
        ∃ k, k < j ∧ ∃ hk : k < tr.length,
          tr.get ⟨k, hk⟩ = (TaskId.extract, Outcome.success)) := by
  have hspec := validFrom_spec tr [] h
  have htrans : ∀ (i : Nat) (hi : i < tr.length),
      (tr.get ⟨i, hi⟩).1 = TaskId.transform →
      ∃ j, j < i ∧ ∃ hj : j < tr.length,
        tr.get ⟨j, hj⟩ = (TaskId.extract, Outcome.success) := by
    intro i hi ht
    have hu : TaskId.extract ∈ upstream (tr.get ⟨i, hi⟩).1 := by
      rw [ht]; exact List.mem_singleton.mpr rfl
    rcases hspec i hi TaskId.extract hu with hmem | hfound
    · exact absurd hmem (List.not_mem_nil TaskId.extract)
    · exact hfound
  refine ⟨⟨rfl, rfl, rfl⟩, ?_, htrans, ?_⟩
  · intro t
    cases t <;> decide
  · intro i hi hl
    have hu : TaskId.transform ∈ upstream (tr.get ⟨i, hi⟩).1 := by
      rw [hl]; exact List.mem_singleton.mpr rfl
    rcases hspec i hi TaskId.transform hu with hmem | ⟨j, hj1, hj2, hj3⟩
    · exact absurd hmem (List.not_mem_nil TaskId.transform)
    · have hjt : (tr.get ⟨j, hj2⟩).1 = TaskId.transform := by rw [hj3]
      rcases htrans j hj2 hjt with ⟨k, hk1, hk2, hk3⟩
      exact ⟨j, hj1, ⟨hj2, hj3⟩, k, hk1, hk2, hk3⟩

/-- The nominal run trace: each stage succeeds once, in chain order. -/
def tr0 : List (TaskId × Outcome) :=
  [(TaskId.extract, Outcome.success), (TaskId.transform, Outcome.success),
   (TaskId.load, Outcome.success)]

/-- Witness for C2 on the nominal trace: its load event (at index 2) is
preceded by a successful transform event, itself preceded by a successful
extract event. -/
theorem pipeline_linear_chain_witness :
    validTrace tr0 = true ∧
    ∃ j, j < 2 ∧
      (∃ hj : j < tr0.length,
        tr0.get ⟨j, hj⟩ = (TaskId.transform, Outcome.success)) ∧
      ∃ k, k < j ∧ ∃ hk : k < tr0.length,
        tr0.get ⟨k, hk⟩ = (TaskId.extract, Outcome.success) :=
  ⟨by decide,
    (pipeline_linear_chain tr0 (by decide)).2.2.2 2 (by decide) (by decide)⟩

end ClinicalTrialDag
